import Mathlib

/- Batteries marks the arithmetic on `Rat` as irreducible, which blocks
`decide`/`rfl` evaluation of concrete rational computations; re-enable
unfolding so that witnesses can evaluate the embedded functions on
concrete inputs. -/
unseal Rat.mul Rat.inv Rat.add Rat.sub Rat.ofScientific

/-!
Shallow embedding of the EUR/USD trading bot's computational core
(`src/utils/simulation.ts` and the signal-lifecycle logic of the main
application component), together with proofs about the frozen claims.

Modelling conventions:
* JavaScript floating-point numbers are modelled as exact rationals `ℚ`;
  timestamps (`Date.now()` milliseconds) as integers `ℤ`.
* `undefined` / `null` indicator fields are `Option` values.
* JavaScript truthiness on a numeric optional (`!x` and `x ? _ : _`)
  is `numTruthy`: false exactly when the value is absent or equals 0.
* `Math.sqrt` (used only by the Bollinger computation) is a host float
  operation with no exact rational counterpart; it is abstracted as an
  explicit function parameter `sqrtFn : ℚ → ℚ`.
* Display-only text (the IST time formatter, random signal ids, locale
  time strings, the `debug` string) is abstracted: the formatter becomes
  an injective placeholder and generated ids become `""`.  No claim
  mentions these fields' contents.
* The process-wide mutable `MarketSentiment` score and the mutable
  signal list become explicit state passed to / returned from the
  corresponding functions.
-/

/-- MACD indicator value attached to a candle (`types.ts` `Candle.macd`). -/
structure MacdData where
  line : ℚ
  signal : ℚ
  hist : ℚ
deriving DecidableEq

/-- Bollinger-band value attached to a candle (`types.ts` `Candle.bollinger`). -/
structure BollingerData where
  upper : ℚ
  middle : ℚ
  lower : ℚ
deriving DecidableEq

/-- One OHLCV bar plus optional indicator fields (`types.ts` `Candle`).
The TypeScript field `open` is a Lean keyword and is rendered `open_`. -/
structure Candle where
  time : String := ""
  open_ : ℚ
  high : ℚ
  low : ℚ
  close : ℚ
  volume : ℚ
  timestamp : ℤ
  smaFast : Option ℚ := none
  smaSlow : Option ℚ := none
  ema200 : Option ℚ := none
  macd : Option MacdData := none
  bollinger : Option BollingerData := none
  adx : Option ℚ := none
  atr : Option ℚ := none
  rsi : Option ℚ := none
  isNewsCandle : Option Bool := none
deriving DecidableEq

/-- A candle with all-zero prices, used as the default for total list access. -/
def emptyCandle : Candle :=
  { open_ := 0, high := 0, low := 0, close := 0, volume := 0, timestamp := 0 }

instance : Inhabited Candle := ⟨emptyCandle⟩

/-- Direction of a signal (`types.ts` `Signal.type`). -/
inductive SignalType
  | CALL
  | PUT
deriving DecidableEq

/-- Lifecycle status of a signal (`types.ts` `Signal.status`). -/
inductive SignalStatus
  | PENDING
  | WIN
  | LOSS
deriving DecidableEq

/-- Discretized strength tier (`types.ts` `Signal.signalStrength`). -/
inductive Strength
  | WEAK
  | MODERATE
  | STRONG
  | MAX
deriving DecidableEq

/-- One scoring decision (`types.ts` `Signal`). -/
structure Signal where
  id : String := ""
  timestamp : ℤ
  timestampStr : String := ""
  type : SignalType
  price : ℚ
  exitPrice : Option ℚ := none
  confidence : ℚ := 0
  timeframe : String
  regime : String := ""
  status : SignalStatus
  pnl : Option ℚ := none
  strategy : Option String := none
  aiPrediction : Option ℚ := none
  signalStrength : Option Strength := none
  aiConfidenceScore : Option ℚ := none
  newsContext : Option String := none
deriving DecidableEq

/-- Default signal used for total list access. -/
def dummySignal : Signal :=
  { timestamp := 0, type := SignalType.CALL, price := 0,
    timeframe := "", status := SignalStatus.PENDING }

instance : Inhabited Signal := ⟨dummySignal⟩

/-- Sentiment polarity of a news event (`types.ts` `NewsItem.sentiment`). -/
inductive Sentiment
  | POSITIVE
  | NEGATIVE
  | NEUTRAL
deriving DecidableEq

/-- Impact tier of a news event (`types.ts` `NewsItem.impact`). -/
inductive Impact
  | HIGH
  | MEDIUM
  | LOW
deriving DecidableEq

/-- One discrete news event (`types.ts` `NewsItem`). -/
structure NewsItem where
  headline : String := ""
  sentiment : Sentiment
  impact : Impact
  timestamp : ℤ := 0
  source : String := ""
deriving DecidableEq

/-- Truthiness of an optional JavaScript number: `undefined` and `0` are falsy. -/
def numTruthy (o : Option ℚ) : Bool :=
  match o with
  | none => false
  | some x => decide (x ≠ 0)

/-- The IST time formatter `formatToIST`.  The real function renders an
`hh:mm` string in the Asia/Kolkata timezone; its output is display-only
(no claim depends on it), so it is abstracted as a placeholder rendering
of the timestamp. -/
def formatToIST (ts : ℤ) : String := toString ts

/-- State transition of `MarketSentiment.addNews`: derive a signed impact
magnitude from the event, add it to the rolling score and clamp to
`[-100, 100]`.  Returns the new value of the private static `score`. -/
def addNews (score : ℚ) (item : NewsItem) : ℚ :=
  let impactVal : ℚ :=
    match item.impact with
    | Impact.HIGH => 25
    | Impact.MEDIUM => 15
    | Impact.LOW => 5
  let impactVal : ℚ :=
    match item.sentiment with
    | Sentiment.NEGATIVE => -impactVal
    | Sentiment.NEUTRAL => 0
    | Sentiment.POSITIVE => impactVal
  max (-100) (min 100 (score + impactVal))

/-- State transition of `MarketSentiment.getScore`: decay the score by the
factor 0.995 and snap it to exactly 0 once its absolute value is below 1.
The returned value is also the new value of the stored score. -/
def getScore (score : ℚ) : ℚ :=
  let s := score * (995 / 1000)
  if |s| < 1 then 0 else s

/-- Score after `n` consecutive `getScore` reads with no intervening news. -/
def getScoreN (s : ℚ) : ℕ → ℚ
  | 0 => s
  | n + 1 => getScore (getScoreN s n)

/-- Leading decimal digits of a string, as `parseInt` reads them;
`none` models the `NaN` result when no leading digit exists.  (The
sign/whitespace handling of `parseInt` is never exercised by the
repository's timeframe labels.) -/
def parseLeadingDigits (s : String) : Option ℕ :=
  let ds := s.toList.takeWhile (fun c => c.isDigit)
  if ds.isEmpty then none
  else some (ds.foldl (fun acc c => acc * 10 + (c.toNat - 48)) 0)

/-- Whether a string's final character is `c` (JS `String.endsWith` on a
one-character suffix). -/
def endsWithChar (s : String) (c : Char) : Bool :=
  s.toList.getLast? = some c

/-- Expiry duration in minutes parsed from a timeframe label inside
`checkSignals`: trailing `m` means minutes, trailing `h` means hours,
anything else falls back to 5; `none` models a `NaN` parse. -/
def tfMinutes (tf : String) : Option ℕ :=
  if endsWithChar tf 'm' then parseLeadingDigits tf
  else if endsWithChar tf 'h' then (parseLeadingDigits tf).map (fun n => n * 60)
  else some 5

/-- Per-signal body of `checkSignals`: resolve one signal against the
current price at time `now` (the `Date.now()` read). A `NaN` duration
makes the `elapsed >= duration` comparison false, leaving the signal
untouched. -/
def checkSignal (now : ℤ) (currentPrice : ℚ) (sig : Signal) : Signal :=
  if sig.status ≠ SignalStatus.PENDING then sig
  else
    match tfMinutes sig.timeframe with
    | none => sig
    | some minutes =>
      let duration : ℤ := (minutes : ℤ) * 60 * 1000
      let elapsed : ℤ := now - sig.timestamp
      if duration ≤ elapsed then
        if sig.type = SignalType.CALL ∧ sig.price < currentPrice
            ∨ sig.type = SignalType.PUT ∧ currentPrice < sig.price then
          { sig with status := SignalStatus.WIN, pnl := some (85 / 100),
                     exitPrice := some currentPrice }
        else
          { sig with status := SignalStatus.LOSS, pnl := some (-1),
                     exitPrice := some currentPrice }
      else sig

/-- The resolution pass `checkSignals`: map every signal through
`checkSignal` at the current price.  `now` is the single `Date.now()`
instant of the pass. -/
def checkSignals (signals : List Signal) (currentPrice : ℚ) (now : ℤ) : List Signal :=
  signals.map (fun sig => checkSignal now currentPrice sig)

/-- Number of signals in the set that are PENDING for timeframe `tf`. -/
def pendingCount (tf : String) (signals : List Signal) : ℕ :=
  signals.countP (fun s => decide (s.timeframe = tf ∧ s.status = SignalStatus.PENDING))

/-- One atomic transition of the signal set, as performed by the
application: either a bar-close scoring pass emits a fresh PENDING signal
for a timeframe that currently has no PENDING signal (the
`hasActiveSignal` gate in `ws.onmessage`, followed by
`setSignals(prev => [signal, ...prev])`), or a resolution tick replaces
the set with `checkSignals` of it. -/
inductive SigStep : List Signal → List Signal → Prop
  | score (signals : List Signal) (s : Signal)
      (hpending : s.status = SignalStatus.PENDING)
      (hgate : ∀ t ∈ signals, t.timeframe = s.timeframe → t.status ≠ SignalStatus.PENDING) :
      SigStep signals (s :: signals)
  | resolve (signals : List Signal) (currentPrice : ℚ) (now : ℤ) :
      SigStep signals (checkSignals signals currentPrice now)

/-- Signal sets reachable from the initial empty set by scoring and
resolution passes. -/
inductive ReachableSignals : List Signal → Prop
  | init : ReachableSignals []
  | step {s s' : List Signal} : ReachableSignals s → SigStep s s' → ReachableSignals s'

/-- `checkSignal` either returns the signal unchanged or returns a signal
that is no longer PENDING. -/
theorem checkSignal_cases (now : ℤ) (p : ℚ) (s : Signal) :
    checkSignal now p s = s ∨ (checkSignal now p s).status ≠ SignalStatus.PENDING := by
  unfold checkSignal
  split
  · exact Or.inl rfl
  · split
    · exact Or.inl rfl
    · dsimp only
      split
      · split
        · exact Or.inr (by simp)
        · exact Or.inr (by simp)
      · exact Or.inl rfl

/-- Helper: a resolution pass cannot increase the number of PENDING
signals of any timeframe. -/
theorem pendingCount_checkSignals_le (tf : String) (signals : List Signal)
    (p : ℚ) (now : ℤ) :
    pendingCount tf (checkSignals signals p now) ≤ pendingCount tf signals := by
  unfold pendingCount checkSignals
  rw [List.countP_map]
  refine List.countP_mono_left (fun s _hs h => ?_)
  rcases checkSignal_cases now p s with heq | hst
  · simpa [Function.comp, heq] using h
  · exfalso
    simp only [Function.comp] at h
    have := of_decide_eq_true h
    exact hst this.2

/-- Helper: a single transition of the signal set preserves the bound of
at most one PENDING signal per timeframe. -/
theorem pendingCount_step_le (tf : String) {s s' : List Signal}
    (hstep : SigStep s s') (h : pendingCount tf s ≤ 1) :
    pendingCount tf s' ≤ 1 := by
  cases hstep with
  | score sig hpending hgate =>
    unfold pendingCount at h ⊢
    rw [List.countP_cons]
    by_cases hcase : sig.timeframe = tf ∧ sig.status = SignalStatus.PENDING
    · have hzero : s.countP
          (fun t => decide (t.timeframe = tf ∧ t.status = SignalStatus.PENDING)) = 0 := by
        rw [List.countP_eq_zero]
        intro t ht hcontra
        have ht2 := of_decide_eq_true hcontra
        exact hgate t ht (ht2.1.trans hcase.1.symm) ht2.2
      rw [hzero]
      simp [hcase]
    · have hd : decide (sig.timeframe = tf ∧ sig.status = SignalStatus.PENDING) = false := by
        simpa using hcase
      rw [hd]
      simpa using h
  | resolve price now =>
    exact (pendingCount_checkSignals_le tf s price now).trans h

/-- Claim C1: for every reachable state of the signal set (starting from
the empty set, stepping by bar-close scoring passes — which skip any
timeframe that already has a PENDING signal — and by resolution passes
via `checkSignals`), at most one PENDING signal exists per timeframe
identifier. -/
theorem pending_unique_per_timeframe (signals : List Signal)
    (h : ReachableSignals signals) (tf : String) :
    pendingCount tf signals ≤ 1 := by
  induction h with
  | init => simp [pendingCount]
  | step _hr hstep ih => exact pendingCount_step_le tf hstep ih

/-- A concrete PENDING signal used to instantiate the C1 invariant. -/
def witnessSignal : Signal :=
  { timestamp := 0, type := SignalType.CALL, price := 11 / 10,
    timeframe := "5m", status := SignalStatus.PENDING }

/-- Witness for C1: the invariant evaluated on a concrete reachable
state holding one freshly scored 5m signal. -/
theorem pending_unique_per_timeframe_witness :
    pendingCount "5m" [witnessSignal] ≤ 1 :=
  pending_unique_per_timeframe [witnessSignal]
    (ReachableSignals.step ReachableSignals.init
      (SigStep.score [] witnessSignal rfl (fun t ht => absurd ht (List.not_mem_nil t))))
    "5m"

/-- Claim C2: `checkSignals` maps each signal as follows.  A non-PENDING
signal is returned unchanged.  A PENDING signal whose parsed timeframe
duration is `m` minutes and whose elapsed time `now - createdAt` has
reached `m` minutes is resolved with `exitPrice` set to the current
price: WIN with pnl `+0.85` when the price moved favorably relative to
entry (CALL: price above entry; PUT: price below entry), otherwise LOSS
with pnl `-1`.  A PENDING signal not yet due is returned unchanged. -/
theorem checkSignals_resolution (sigs : List Signal) (currentPrice : ℚ) (now : ℤ)
    (i : ℕ) (sig : Signal) (h : i < sigs.length) (hsig : sigs.getD i dummySignal = sig) :
    (sig.status ≠ SignalStatus.PENDING →
        (checkSignals sigs currentPrice now).getD i dummySignal = sig) ∧
    (∀ m : ℕ, sig.status = SignalStatus.PENDING → tfMinutes sig.timeframe = some m →
        (((m : ℤ) * 60 * 1000 ≤ now - sig.timestamp →
            ((sig.type = SignalType.CALL ∧ sig.price < currentPrice
                ∨ sig.type = SignalType.PUT ∧ currentPrice < sig.price) →
              (checkSignals sigs currentPrice now).getD i dummySignal =
                { sig with status := SignalStatus.WIN, pnl := some (85 / 100),
                           exitPrice := some currentPrice }) ∧
            (¬(sig.type = SignalType.CALL ∧ sig.price < currentPrice
                ∨ sig.type = SignalType.PUT ∧ currentPrice < sig.price) →
              (checkSignals sigs currentPrice now).getD i dummySignal =
                { sig with status := SignalStatus.LOSS, pnl := some (-1),
                           exitPrice := some currentPrice })) ∧
          (now - sig.timestamp < (m : ℤ) * 60 * 1000 →
            (checkSignals sigs currentPrice now).getD i dummySignal = sig))) := by
  have hget : (checkSignals sigs currentPrice now).getD i dummySignal =
      checkSignal now currentPrice sig := by
    unfold checkSignals
    rw [List.getD_eq_getElem?_getD, List.getElem?_map]
    rw [List.getElem?_eq_getElem h]
    simp only [Option.map_some', Option.getD_some]
    rw [List.getD_eq_getElem?_getD, List.getElem?_eq_getElem h] at hsig
    simp only [Option.getD_some] at hsig
    rw [hsig]
  rw [hget]
  constructor
  · intro hstatus
    unfold checkSignal
    rw [if_pos hstatus]
  · intro m hstatus htf
    constructor
    · intro hdue
      constructor
      · intro hfav
        unfold checkSignal
        rw [if_neg (by simpa using hstatus), htf]
        dsimp only
        rw [if_pos hdue, if_pos hfav]
      · intro hfav
        unfold checkSignal
        rw [if_neg (by simpa using hstatus), htf]
        dsimp only
        rw [if_pos hdue, if_neg hfav]
    · intro hnot
      unfold checkSignal
      rw [if_neg (by simpa using hstatus), htf]
      dsimp only
      rw [if_neg (by omega)]

/-- Concrete pending CALL signal for the C2 witness: entry 1.1000 on the
5m timeframe, created at time 0. -/
def pendingCallSignal : Signal :=
  { timestamp := 0, type := SignalType.CALL, price := 11000 / 10000,
    timeframe := "5m", status := SignalStatus.PENDING }

/-- Witness for C2: the pending 5m CALL at entry 1.1000 resolves to WIN
with pnl 0.85 and exit price 1.1010 once 5 minutes have elapsed. -/
theorem checkSignals_resolution_witness :
    (checkSignals [pendingCallSignal] (11010 / 10000) 300000).getD 0 dummySignal =
      { pendingCallSignal with status := SignalStatus.WIN, pnl := some (85 / 100),
                               exitPrice := some (11010 / 10000) } := by
  have h := checkSignals_resolution [pendingCallSignal] (11010 / 10000) 300000 0
    pendingCallSignal (by decide) rfl
  exact ((h.2 5 rfl (by decide)).1 (by decide)).1 (by decide)

/-- Claim C8: starting from any sentiment score in `[-100, 100]`, both a
news ingestion (`addNews`) and a decaying read (`getScore`) yield a
score still in `[-100, 100]`. -/
theorem sentiment_range_invariant (s : ℚ) (item : NewsItem)
    (h1 : -100 ≤ s) (h2 : s ≤ 100) :
    (-100 ≤ addNews s item ∧ addNews s item ≤ 100) ∧
    (-100 ≤ getScore s ∧ getScore s ≤ 100) := by
  refine ⟨⟨?_, ?_⟩, ?_, ?_⟩
  · exact le_max_left _ _
  · exact max_le (by norm_num) ((min_le_left _ _))
  · unfold getScore
    dsimp only
    split
    · norm_num
    · linarith
  · unfold getScore
    dsimp only
    split
    · norm_num
    · linarith

/-- A concrete high-impact positive news event for the C8 witness. -/
def newsEventW : NewsItem :=
  { sentiment := Sentiment.POSITIVE, impact := Impact.HIGH }

/-- Witness for C8: the range invariant instantiated at score 90 and a
HIGH-impact POSITIVE news event. -/
theorem sentiment_range_invariant_witness :
    (-100 ≤ addNews 90 newsEventW ∧ addNews 90 newsEventW ≤ 100) ∧
    (-100 ≤ getScore 90 ∧ getScore 90 ≤ 100) :=
  sentiment_range_invariant 90 newsEventW (by norm_num) (by norm_num)

/-- Helper: a single decaying read never increases the magnitude of the
score. -/
theorem getScore_abs_le (q : ℚ) : |getScore q| ≤ |q| := by
  unfold getScore
  dsimp only
  split
  · simp
  · rw [abs_mul]
    calc |q| * |(995 : ℚ) / 1000| ≤ |q| * 1 := by
          refine mul_le_mul_of_nonneg_left ?_ (abs_nonneg q)
          rw [abs_of_nonneg] <;> norm_num
      _ = |q| := mul_one _

/-- Helper: a decaying read keeps a nonnegative score nonnegative. -/
theorem getScore_nonneg (q : ℚ) (h : 0 ≤ q) : 0 ≤ getScore q := by
  unfold getScore
  dsimp only
  split
  · exact le_refl 0
  · positivity

/-- Helper: a decaying read keeps a nonpositive score nonpositive. -/
theorem getScore_nonpos (q : ℚ) (h : q ≤ 0) : getScore q ≤ 0 := by
  unfold getScore
  dsimp only
  split
  · exact le_refl 0
  · have : (0:ℚ) ≤ 995 / 1000 := by norm_num
    exact mul_nonpos_of_nonpos_of_nonneg h this

/-- Helper: a zero score stays exactly zero under reads. -/
theorem getScore_zero : getScore 0 = 0 := by
  unfold getScore
  norm_num

/-- Helper: after `n` reads the score is either exactly 0 (snapped) or the
initial score scaled by `0.995 ^ n`. -/
theorem getScoreN_eq (s : ℚ) (n : ℕ) :
    getScoreN s n = 0 ∨ getScoreN s n = s * (995 / 1000) ^ n := by
  induction n with
  | zero => right; simp [getScoreN]
  | succ n ih =>
    have hstep : getScoreN s (n + 1) = getScore (getScoreN s n) := rfl
    rcases ih with h | h
    · left
      rw [hstep, h, getScore_zero]
    · rw [hstep, h]
      unfold getScore
      dsimp only
      split
      · exact Or.inl rfl
      · right
        rw [pow_succ]
        ring

/-- Helper: once the score is snapped to 0 it remains 0 forever. -/
theorem getScoreN_zero_stable (s : ℚ) (n : ℕ) (h : getScoreN s n = 0) :
    ∀ k : ℕ, getScoreN s (n + k) = 0 := by
  intro k
  induction k with
  | zero => exact h
  | succ k ih =>
    have : getScoreN s (n + (k + 1)) = getScore (getScoreN s (n + k)) := rfl
    rw [this, ih, getScore_zero]

/-- Claim C9: under repeated `getScore` reads with no intervening news,
each read scales the score by 0.995 and snaps it to exactly 0 once the
scaled magnitude falls below 1; the magnitude is non-increasing across
reads, the score never crosses 0 (a nonnegative score stays nonnegative,
a nonpositive one nonpositive), and the score becomes exactly 0 after
finitely many reads and stays there. -/
theorem sentiment_decay_behavior (s : ℚ) :
    (∀ q : ℚ, getScore q =
        if |q * (995 / 1000)| < 1 then 0 else q * (995 / 1000)) ∧
    (∀ n : ℕ, |getScoreN s (n + 1)| ≤ |getScoreN s n|) ∧
    (0 ≤ s → ∀ n : ℕ, 0 ≤ getScoreN s n) ∧
    (s ≤ 0 → ∀ n : ℕ, getScoreN s n ≤ 0) ∧
    (∃ N : ℕ, ∀ n : ℕ, N ≤ n → getScoreN s n = 0) := by
  refine ⟨fun q => rfl, fun n => getScore_abs_le _, ?_, ?_, ?_⟩
  · intro hs n
    induction n with
    | zero => exact hs
    | succ n ih => exact getScore_nonneg _ ih
  · intro hs n
    induction n with
    | zero => exact hs
    | succ n ih => exact getScore_nonpos _ ih
  · obtain ⟨N, hN⟩ := exists_pow_lt_of_lt_one
      (x := (1 : ℚ) / (|s| + 1)) (y := (995 : ℚ) / 1000)
      (by positivity) (by norm_num)
    have habs : |getScoreN s N| < 1 := by
      rcases getScoreN_eq s N with h | h
      · rw [h]; norm_num
      · rw [h, abs_mul, abs_pow]
        have hpow : |(995 : ℚ) / 1000| ^ N < 1 / (|s| + 1) := by
          rw [abs_of_nonneg (by norm_num : (0:ℚ) ≤ 995 / 1000)]
          exact hN
        have hs1 : (0:ℚ) < |s| + 1 := by positivity
        calc |s| * |(995 : ℚ) / 1000| ^ N
            ≤ (|s| + 1) * |(995 : ℚ) / 1000| ^ N := by
              refine mul_le_mul_of_nonneg_right (by linarith) ?_
              positivity
          _ < (|s| + 1) * (1 / (|s| + 1)) :=
              mul_lt_mul_of_pos_left hpow hs1
          _ = 1 := by field_simp
    have hlt : |getScoreN s N * ((995 : ℚ) / 1000)| < 1 := by
      rw [abs_mul]
      calc |getScoreN s N| * |(995 : ℚ) / 1000|
          ≤ |getScoreN s N| * 1 := by
            refine mul_le_mul_of_nonneg_left ?_ (abs_nonneg _)
            rw [abs_of_nonneg] <;> norm_num
        _ = |getScoreN s N| := mul_one _
        _ < 1 := habs
    have hzero : getScoreN s (N + 1) = 0 := by
      have hstep : getScoreN s (N + 1) = getScore (getScoreN s N) := rfl
      rw [hstep]
      unfold getScore
      dsimp only
      rw [if_pos hlt]
    refine ⟨N + 1, fun n hn => ?_⟩
    obtain ⟨k, rfl⟩ := Nat.exists_eq_add_of_le hn
    exact getScoreN_zero_stable s (N + 1) hzero k

/-- Witness for C9: the decay behavior instantiated at starting score 50 —
the first read shrinks the magnitude and reads keep the score
nonnegative. -/
theorem sentiment_decay_behavior_witness :
    |getScoreN 50 1| ≤ |getScoreN 50 0| ∧ 0 ≤ getScoreN 50 3 :=
  ⟨(sentiment_decay_behavior 50).2.1 0,
   (sentiment_decay_behavior 50).2.2.1 (by norm_num) 3⟩

/-- Bucket key of a candle for a given interval: the timestamp truncated
down to the interval start (`Math.floor(c.timestamp / intervalMs) *
intervalMs`). -/
def bucketKey (intervalMs : ℤ) (c : Candle) : ℤ :=
  Int.fdiv c.timestamp intervalMs * intervalMs

/-- All candles of the input falling into the bucket starting at `ts`,
in input order (the JS `Map` group built by insertion). -/
def bucketGroup (candles : List Candle) (intervalMs ts : ℤ) : List Candle :=
  candles.filter (fun c => bucketKey intervalMs c = ts)

/-- Maximum of a list of rationals with a default for the empty list
(`Math.max(...)` over a group, which is never empty). -/
def listMaxD (l : List ℚ) (d : ℚ) : ℚ :=
  match l with
  | [] => d
  | x :: xs => xs.foldl max x

/-- Minimum of a list of rationals with a default for the empty list. -/
def listMinD (l : List ℚ) (d : ℚ) : ℚ :=
  match l with
  | [] => d
  | x :: xs => xs.foldl min x

/-- Aggregate of one bucket inside `resampleCandles`: open of the bucket's
first bar, close of its last, max of highs, min of lows, summed volume,
and the bucket start as the timestamp. -/
def resampleBar (candles : List Candle) (intervalMs ts : ℤ) : Candle :=
  { time := formatToIST ts,
    open_ := (bucketGroup candles intervalMs ts).headI.open_,
    high := listMaxD ((bucketGroup candles intervalMs ts).map (fun c => c.high)) 0,
    low := listMinD ((bucketGroup candles intervalMs ts).map (fun c => c.low)) 0,
    close := ((bucketGroup candles intervalMs ts).getLastD emptyCandle).close,
    volume := ((bucketGroup candles intervalMs ts).map (fun c => c.volume)).sum,
    timestamp := ts }

/-- The resampler `resampleCandles`: at the base interval (1 minute) the
input is returned unchanged; otherwise candles are grouped by bucket key,
the distinct keys are sorted ascending and each bucket is aggregated by
`resampleBar`. -/
def resampleCandles (candles : List Candle) (timeframeMinutes : ℕ) : List Candle :=
  if timeframeMinutes = 1 then candles
  else
    (List.insertionSort (fun a b => a ≤ b)
        ((candles.map (bucketKey ((timeframeMinutes : ℤ) * 60 * 1000))).dedup)).map
      (resampleBar candles ((timeframeMinutes : ℤ) * 60 * 1000))

/-- Helper: the seed is bounded by the fold of `max` over a list. -/
theorem seed_le_foldl_max (xs : List ℚ) (a : ℚ) : a ≤ xs.foldl max a := by
  induction xs generalizing a with
  | nil => exact le_refl a
  | cons y ys ih => exact le_trans (le_max_left a y) (ih (max a y))

/-- Helper: every element of a list is bounded by the fold of `max` over
the list. -/
theorem le_foldl_max (xs : List ℚ) (a x : ℚ) (h : x = a ∨ x ∈ xs) :
    x ≤ xs.foldl max a := by
  induction xs generalizing a with
  | nil =>
    rcases h with rfl | h
    · exact le_refl x
    · cases h
  | cons y ys ih =>
    rw [List.foldl_cons]
    rcases h with rfl | h
    · exact le_trans (le_max_left x y) (seed_le_foldl_max ys (max x y))
    · rcases List.mem_cons.mp h with rfl | hmem
      · exact le_trans (le_max_right a x) (seed_le_foldl_max ys (max a x))
      · exact ih (max a y) (Or.inr hmem)

/-- Helper: the fold of `max` over a list is the seed or one of the
elements. -/
theorem foldl_max_mem (xs : List ℚ) (a : ℚ) :
    xs.foldl max a = a ∨ xs.foldl max a ∈ xs := by
  induction xs generalizing a with
  | nil => exact Or.inl rfl
  | cons y ys ih =>
    rcases ih (max a y) with h | h
    · rcases max_choice a y with hm | hm
      · refine Or.inl ?_
        rw [List.foldl_cons, h, hm]
      · refine Or.inr ?_
        rw [List.foldl_cons, h, hm]
        exact List.mem_cons_self y ys
    · refine Or.inr (List.mem_cons_of_mem y ?_)
      rw [List.foldl_cons]
      exact h

/-- Helper: the seed bounds the fold of `min` over a list from above. -/
theorem foldl_min_le_seed (xs : List ℚ) (a : ℚ) : xs.foldl min a ≤ a := by
  induction xs generalizing a with
  | nil => exact le_refl a
  | cons y ys ih => exact le_trans (ih (min a y)) (min_le_left a y)

/-- Helper: every element of a list bounds the fold of `min` from above. -/
theorem foldl_min_le (xs : List ℚ) (a x : ℚ) (h : x = a ∨ x ∈ xs) :
    xs.foldl min a ≤ x := by
  induction xs generalizing a with
  | nil =>
    rcases h with rfl | h
    · exact le_refl x
    · cases h
  | cons y ys ih =>
    rw [List.foldl_cons]
    rcases h with rfl | h
    · exact le_trans (foldl_min_le_seed ys (min x y)) (min_le_left x y)
    · rcases List.mem_cons.mp h with rfl | hmem
      · exact le_trans (foldl_min_le_seed ys (min a x)) (min_le_right a x)
      · exact ih (min a y) (Or.inr hmem)

/-- Helper: the fold of `min` over a list is the seed or one of the
elements. -/
theorem foldl_min_mem (xs : List ℚ) (a : ℚ) :
    xs.foldl min a = a ∨ xs.foldl min a ∈ xs := by
  induction xs generalizing a with
  | nil => exact Or.inl rfl
  | cons y ys ih =>
    rcases ih (min a y) with h | h
    · rcases min_choice a y with hm | hm
      · refine Or.inl ?_
        rw [List.foldl_cons, h, hm]
      · refine Or.inr ?_
        rw [List.foldl_cons, h, hm]
        exact List.mem_cons_self y ys
    · refine Or.inr (List.mem_cons_of_mem y ?_)
      rw [List.foldl_cons]
      exact h

/-- The bucketing property claimed for the resampler, as a predicate on
the input sequence and target interval: output timestamps are the bucket
keys in strictly ascending order, every input bar's bucket appears, and
each output bar aggregates exactly its (non-empty) bucket group — open of
the first bar, close of the last, high an attained upper bound, low an
attained lower bound, volume the sum. -/
def ResampleBucketed (candles : List Candle) (m : ℕ) : Prop :=
  List.Sorted (fun a b => a < b)
      ((resampleCandles candles m).map (fun b => b.timestamp)) ∧
  (∀ c ∈ candles, bucketKey ((m : ℤ) * 60 * 1000) c ∈
      (resampleCandles candles m).map (fun b => b.timestamp)) ∧
  (∀ b ∈ resampleCandles candles m,
    bucketGroup candles ((m : ℤ) * 60 * 1000) b.timestamp ≠ [] ∧
    b.open_ = (bucketGroup candles ((m : ℤ) * 60 * 1000) b.timestamp).headI.open_ ∧
    b.close = ((bucketGroup candles ((m : ℤ) * 60 * 1000) b.timestamp).getLastD emptyCandle).close ∧
    (∀ c ∈ bucketGroup candles ((m : ℤ) * 60 * 1000) b.timestamp,
        c.high ≤ b.high ∧ b.low ≤ c.low) ∧
    b.high ∈ (bucketGroup candles ((m : ℤ) * 60 * 1000) b.timestamp).map (fun c => c.high) ∧
    b.low ∈ (bucketGroup candles ((m : ℤ) * 60 * 1000) b.timestamp).map (fun c => c.low) ∧
    b.volume = ((bucketGroup candles ((m : ℤ) * 60 * 1000) b.timestamp).map (fun c => c.volume)).sum)

/-- Claim C5 (amended to exclude the base interval, where the source
returns the input unchanged): for every bar sequence and every target
interval other than 1 minute, the resampler partitions the bars into
buckets keyed by `floor(timestamp / intervalMs) * intervalMs` and returns
one aggregated bar per non-empty bucket in ascending bucket order. -/
theorem resampleCandles_bucketing (candles : List Candle) (m : ℕ) (hm : m ≠ 1) :
    ResampleBucketed candles m := by
  have hR : resampleCandles candles m =
      (List.insertionSort (fun a b => a ≤ b)
        ((candles.map (bucketKey ((m : ℤ) * 60 * 1000))).dedup)).map
        (resampleBar candles ((m : ℤ) * 60 * 1000)) := by
    unfold resampleCandles
    rw [if_neg hm]
  have hcomp : ((fun b => b.timestamp) ∘ resampleBar candles ((m : ℤ) * 60 * 1000)) = id := by
    funext ts
    rfl
  have hts : (resampleCandles candles m).map (fun b => b.timestamp) =
      List.insertionSort (fun a b => a ≤ b)
        ((candles.map (bucketKey ((m : ℤ) * 60 * 1000))).dedup) := by
    rw [hR, List.map_map, hcomp, List.map_id]
  have hsortedLe : List.Sorted (fun a b => a ≤ b)
      (List.insertionSort (fun a b => a ≤ b)
        ((candles.map (bucketKey ((m : ℤ) * 60 * 1000))).dedup)) :=
    List.sorted_insertionSort _ _
  have hnodup : (List.insertionSort (fun a b => a ≤ b)
      ((candles.map (bucketKey ((m : ℤ) * 60 * 1000))).dedup)).Nodup :=
    ((List.perm_insertionSort _ _).nodup_iff).mpr (List.nodup_dedup _)
  refine ⟨?_, ?_, ?_⟩
  · rw [hts]
    exact List.Sorted.lt_of_le hsortedLe hnodup
  · intro c hc
    rw [hts]
    exact ((List.perm_insertionSort _ _).mem_iff).mpr
      (List.mem_dedup.mpr (List.mem_map_of_mem _ hc))
  · intro b hb
    rw [hR] at hb
    obtain ⟨ts, htsmem, rfl⟩ := List.mem_map.mp hb
    have htsded : ts ∈ (candles.map (bucketKey ((m : ℤ) * 60 * 1000))).dedup :=
      ((List.perm_insertionSort _ _).mem_iff).mp htsmem
    obtain ⟨c0, hc0, hkey⟩ := List.mem_map.mp (List.mem_dedup.mp htsded)
    have hcf : c0 ∈ bucketGroup candles ((m : ℤ) * 60 * 1000) ts := by
      unfold bucketGroup
      exact List.mem_filter.mpr ⟨hc0, by simp [hkey]⟩
    have hne : bucketGroup candles ((m : ℤ) * 60 * 1000) ts ≠ [] :=
      List.ne_nil_of_mem hcf
    obtain ⟨g0, gs, hg⟩ := List.exists_cons_of_ne_nil hne
    have htstamp : (resampleBar candles ((m : ℤ) * 60 * 1000) ts).timestamp = ts := rfl
    rw [htstamp]
    refine ⟨hne, rfl, rfl, ?_, ?_, ?_, rfl⟩
    · intro c hcmem
      have hbhigh : (resampleBar candles ((m : ℤ) * 60 * 1000) ts).high =
          (gs.map (fun c => c.high)).foldl max g0.high := by
        show listMaxD ((bucketGroup candles ((m : ℤ) * 60 * 1000) ts).map (fun c => c.high)) 0 = _
        rw [hg]
        rfl
      have hblow : (resampleBar candles ((m : ℤ) * 60 * 1000) ts).low =
          (gs.map (fun c => c.low)).foldl min g0.low := by
        show listMinD ((bucketGroup candles ((m : ℤ) * 60 * 1000) ts).map (fun c => c.low)) 0 = _
        rw [hg]
        rfl
      rw [hg] at hcmem
      constructor
      · rw [hbhigh]
        rcases List.mem_cons.mp hcmem with rfl | hmem
        · exact le_foldl_max _ _ _ (Or.inl rfl)
        · exact le_foldl_max _ _ _ (Or.inr (List.mem_map_of_mem _ hmem))
      · rw [hblow]
        rcases List.mem_cons.mp hcmem with rfl | hmem
        · exact foldl_min_le _ _ _ (Or.inl rfl)
        · exact foldl_min_le _ _ _ (Or.inr (List.mem_map_of_mem _ hmem))
    · have hbhigh : (resampleBar candles ((m : ℤ) * 60 * 1000) ts).high =
          (gs.map (fun c => c.high)).foldl max g0.high := by
        show listMaxD ((bucketGroup candles ((m : ℤ) * 60 * 1000) ts).map (fun c => c.high)) 0 = _
        rw [hg]
        rfl
      rw [hbhigh, hg]
      rcases foldl_max_mem (gs.map (fun c => c.high)) g0.high with h | h
      · rw [h]
        exact List.mem_map_of_mem _ (List.mem_cons_self g0 gs)
      · rw [List.map_cons]
        exact List.mem_cons_of_mem _ h
    · have hblow : (resampleBar candles ((m : ℤ) * 60 * 1000) ts).low =
          (gs.map (fun c => c.low)).foldl min g0.low := by
        show listMinD ((bucketGroup candles ((m : ℤ) * 60 * 1000) ts).map (fun c => c.low)) 0 = _
        rw [hg]
        rfl
      rw [hblow, hg]
      rcases foldl_min_mem (gs.map (fun c => c.low)) g0.low with h | h
      · rw [h]
        exact List.mem_map_of_mem _ (List.mem_cons_self g0 gs)
      · rw [List.map_cons]
        exact List.mem_cons_of_mem _ h

/-- Five 1-minute bars, timestamps one minute apart, with opens, closes,
highs and lows all equal to 1..5 and volume 3 each (the spec's resampling
example). -/
def fiveBars : List Candle :=
  [ { open_ := 1, high := 1, low := 1, close := 1, volume := 3, timestamp := 0 },
    { open_ := 2, high := 2, low := 2, close := 2, volume := 3, timestamp := 60000 },
    { open_ := 3, high := 3, low := 3, close := 3, volume := 3, timestamp := 120000 },
    { open_ := 4, high := 4, low := 4, close := 4, volume := 3, timestamp := 180000 },
    { open_ := 5, high := 5, low := 5, close := 5, volume := 3, timestamp := 240000 } ]

/-- Witness for C5: the bucketing property instantiated on the five-bar
example resampled at 5 minutes, which indeed collapses to a single bar
with open 1, close 5, high 5, low 1 and volume 15. -/
theorem resampleCandles_bucketing_witness :
    ResampleBucketed fiveBars 5 ∧
    (resampleCandles fiveBars 5).map
        (fun b => (b.open_, b.close, b.high, b.low, b.volume, b.timestamp)) =
      [(1, 5, 5, 1, 15, 0)] :=
  ⟨resampleCandles_bucketing fiveBars 5 (by decide), by decide⟩

/-- A single base bar whose timestamp (1000 ms) is not aligned to a
1-minute bucket boundary. -/
def offsetBar : Candle :=
  { open_ := 1, high := 1, low := 1, close := 1, volume := 0, timestamp := 1000 }

/-- Counterexample to claim C5 as stated: at the base interval (1 minute,
an integer multiple of itself) the source returns the input unchanged, so
the returned bar keeps timestamp 1000 instead of being keyed by its
bucket start 0 — the bucket-partition description fails there. -/
theorem resample_base_interval_counterexample :
    ¬ ResampleBucketed [offsetBar] 1 := by
  intro h
  exact absurd (h.2.1 offsetBar (List.mem_singleton.mpr rfl)) (by decide)

/-- The EMA helper `calcEMA`: seeded with the first value, then
`val*k + prev*(1-k)` with `k = 2/(period+1)`. -/
def calcEMA (val : ℚ) (prevEMA : Option ℚ) (period : ℚ) : ℚ :=
  match prevEMA with
  | none => val
  | some p =>
    let k := 2 / (period + 1)
    val * k + p * (1 - k)

/-- Wilder's moving average `calcRMA`: seeded with the raw value, then
`(prev*(period-1) + val) / period`. -/
def calcRMA (val : ℚ) (prevRMA : Option ℚ) (period : ℚ) : ℚ :=
  match prevRMA with
  | none => val
  | some p => (p * (period - 1) + val) / period

/-- The Bollinger computation of `calculateIndicators` at one index: only
for `index >= bbPeriod` (20), over the 20-close window
`array.slice(index - 19, index + 1)`, with population variance and the
abstracted square root. -/
def bollingerAt (sqrtFn : ℚ → ℚ) (array : List Candle) (index : ℕ) : Option BollingerData :=
  if 20 ≤ index then
    let closes := ((array.drop (index - 19)).take 20).map (fun c => c.close)
    let mean := closes.sum / 20
    let variance := (closes.map (fun c => (c - mean) ^ 2)).sum / 20
    let stdDev := sqrtFn variance
    some { upper := mean + stdDev * 2, middle := mean, lower := mean - stdDev * 2 }
  else none

/-- The mutable locals of `calculateIndicators` that survive from one
candle to the next. -/
structure IndState where
  ema12 : Option ℚ := none
  ema26 : Option ℚ := none
  macdSignalLine : Option ℚ := none
  ema200 : Option ℚ := none
  smoothTR : Option ℚ := none
  smoothPlusDM : Option ℚ := none
  smoothMinusDM : Option ℚ := none
  prevAdx : Option ℚ := none
  avgGain : Option ℚ := none
  avgLoss : Option ℚ := none
deriving DecidableEq

/-- Result of the ADX/ATR block for one candle: the updated smoothing
state plus the `adx`/`atr` values attached to the candle. -/
structure AdxPart where
  smoothTR : Option ℚ
  smoothPlusDM : Option ℚ
  smoothMinusDM : Option ℚ
  prevAdx : Option ℚ
  adxVal : Option ℚ
  atrVal : Option ℚ
deriving DecidableEq

/-- Result of the RSI block for one candle: the updated Wilder averages
plus the `rsi` value attached to the candle. -/
structure RsiPart where
  avgGain : Option ℚ
  avgLoss : Option ℚ
  rsiVal : Option ℚ
deriving DecidableEq

/-- The ADX/ATR block of `calculateIndicators` for one candle: skipped
entirely on the first candle (no `prev`); otherwise true range and
directional movements are Wilder-smoothed (period 14), and the ADX chain
starts only once `index > 2 * adxPeriod` (28), with the `|| 1` guards on
zero denominators. -/
def adxStep (st : IndState) (index : ℕ) (prev : Option Candle) (candle : Candle) : AdxPart :=
  match prev with
  | none =>
    { smoothTR := st.smoothTR, smoothPlusDM := st.smoothPlusDM,
      smoothMinusDM := st.smoothMinusDM, prevAdx := st.prevAdx,
      adxVal := none, atrVal := none }
  | some p =>
    let tr := max (candle.high - candle.low) (max |candle.high - p.close| |candle.low - p.close|)
    let upMove := candle.high - p.high
    let downMove := p.low - candle.low
    let plusDM := if downMove < upMove ∧ 0 < upMove then upMove else 0
    let minusDM := if upMove < downMove ∧ 0 < downMove then downMove else 0
    let sTR := calcRMA tr st.smoothTR 14
    let sPlus := calcRMA plusDM st.smoothPlusDM 14
    let sMinus := calcRMA minusDM st.smoothMinusDM 14
    if 28 < index then
      let plusDI := 100 * sPlus / (if sTR = 0 then 1 else sTR)
      let minusDI := 100 * sMinus / (if sTR = 0 then 1 else sTR)
      let dx := 100 * |plusDI - minusDI| / (if plusDI + minusDI = 0 then 1 else plusDI + minusDI)
      let adxNew := calcRMA dx st.prevAdx 14
      { smoothTR := some sTR, smoothPlusDM := some sPlus, smoothMinusDM := some sMinus,
        prevAdx := some adxNew, adxVal := some adxNew, atrVal := some sTR }
    else
      { smoothTR := some sTR, smoothPlusDM := some sPlus, smoothMinusDM := some sMinus,
        prevAdx := st.prevAdx, adxVal := none, atrVal := some sTR }

/-- The RSI block of `calculateIndicators` for one candle: skipped on the
first candle; the Wilder averages are seeded at `index = 14` from the
first 14 close-to-close moves (`array.slice(1, 15)` against the aligned
prefix) and recursively updated afterwards; the `|| 0.0000001` epsilon
guards a zero average loss. -/
def rsiStep (array : List Candle) (st : IndState) (index : ℕ) (prev : Option Candle)
    (candle : Candle) : RsiPart :=
  match prev with
  | none => { avgGain := st.avgGain, avgLoss := st.avgLoss, rsiVal := none }
  | some p =>
    let change := candle.close - p.close
    let gain := if 0 < change then change else 0
    let loss := if change < 0 then -change else 0
    let avgs : Option ℚ × Option ℚ :=
      if st.avgGain.isNone ∨ st.avgLoss.isNone then
        if index = 14 then
          let pairs := (array.zip (array.drop 1)).take 14
          let initialGains := (pairs.map (fun ab =>
            if 0 < ab.2.close - ab.1.close then ab.2.close - ab.1.close else 0)).sum
          let initialLosses := (pairs.map (fun ab =>
            if ab.2.close - ab.1.close < 0 then -(ab.2.close - ab.1.close) else 0)).sum
          (some (initialGains / 14), some (initialLosses / 14))
        else (st.avgGain, st.avgLoss)
      else
        (some ((st.avgGain.getD 0 * 13 + gain) / 14),
         some ((st.avgLoss.getD 0 * 13 + loss) / 14))
    let rsiVal : Option ℚ :=
      match avgs.1, avgs.2 with
      | some g, some l =>
        let rs := g / (if l = 0 then 1 / 10000000 else l)
        some (100 - 100 / (1 + rs))
      | _, _ => none
    { avgGain := avgs.1, avgLoss := avgs.2, rsiVal := rsiVal }

/-- One iteration of the `candles.map` body of `calculateIndicators`:
update the incremental MACD/EMA200 state, run the ADX and RSI blocks,
compute the stateless Bollinger value, and return the updated state
together with the annotated candle (a spread of the input candle with
only the indicator fields overwritten). -/
def indicatorStep (sqrtFn : ℚ → ℚ) (array : List Candle) (index : ℕ) (st : IndState)
    (candle : Candle) : IndState × Candle :=
  let prev : Option Candle := if index = 0 then none else some (array.getD (index - 1) emptyCandle)
  let ema12 := calcEMA candle.close st.ema12 12
  let ema26 := calcEMA candle.close st.ema26 26
  let macdSignalLine : Option ℚ :=
    if 26 ≤ index then some (calcEMA (ema12 - ema26) st.macdSignalLine 9) else st.macdSignalLine
  let macd : Option MacdData :=
    if 26 ≤ index then
      some { line := ema12 - ema26, signal := macdSignalLine.getD 0,
             hist := ema12 - ema26 - macdSignalLine.getD 0 }
    else none
  let ema200 := calcEMA candle.close st.ema200 200
  let adxPart := adxStep st index prev candle
  let rsiPart := rsiStep array st index prev candle
  ({ ema12 := some ema12, ema26 := some ema26, macdSignalLine := macdSignalLine,
     ema200 := some ema200, smoothTR := adxPart.smoothTR,
     smoothPlusDM := adxPart.smoothPlusDM, smoothMinusDM := adxPart.smoothMinusDM,
     prevAdx := adxPart.prevAdx, avgGain := rsiPart.avgGain, avgLoss := rsiPart.avgLoss },
   { candle with
       macd := macd, bollinger := bollingerAt sqrtFn array index,
       ema200 := some ema200, adx := adxPart.adxVal, atr := adxPart.atrVal,
       rsi := rsiPart.rsiVal })

/-- Recursion over the candle list threading the indicator state, with
`array` the full input list (the third `candles.map` callback argument). -/
def indicatorFold (sqrtFn : ℚ → ℚ) (array : List Candle) :
    ℕ → IndState → List Candle → List Candle
  | _, _, [] => []
  | index, st, c :: rest =>
    (indicatorStep sqrtFn array index st c).2 ::
      indicatorFold sqrtFn array (index + 1) (indicatorStep sqrtFn array index st c).1 rest

/-- The indicator engine `calculateIndicators`: annotate every candle of
the input, threading the incremental EMA/RMA state from the start. -/
def calculateIndicators (sqrtFn : ℚ → ℚ) (candles : List Candle) : List Candle :=
  indicatorFold sqrtFn candles 0 {} candles

/-- Helper: the indicator fold preserves list length. -/
theorem indicatorFold_length (sqrtFn : ℚ → ℚ) (array : List Candle) :
    ∀ (cs : List Candle) (index : ℕ) (st : IndState),
    (indicatorFold sqrtFn array index st cs).length = cs.length := by
  intro cs
  induction cs with
  | nil => intro i st; rfl
  | cons c rest ih =>
    intro i st
    show (_ :: _).length = _
    rw [List.length_cons, List.length_cons, ih]

/-- Helper: the `j`-th output of the indicator fold is the step applied at
index `index + j` to the `j`-th input candle, under some threaded state. -/
theorem indicatorFold_getD (sqrtFn : ℚ → ℚ) (array : List Candle) :
    ∀ (cs : List Candle) (index : ℕ) (st : IndState) (j : ℕ), j < cs.length →
    ∃ st2 : IndState,
      (indicatorFold sqrtFn array index st cs).getD j emptyCandle =
        (indicatorStep sqrtFn array (index + j) st2 (cs.getD j emptyCandle)).2 := by
  intro cs
  induction cs with
  | nil =>
    intro i st j h
    exact absurd h (by simp)
  | cons c rest ih =>
    intro i st j h
    cases j with
    | zero => exact ⟨st, rfl⟩
    | succ j =>
      obtain ⟨st2, hst2⟩ :=
        ih (i + 1) (indicatorStep sqrtFn array i st c).1 j (by simpa using h)
      refine ⟨st2, ?_⟩
      have harith : i + 1 + j = i + (j + 1) := by omega
      rw [← harith]
      exact hst2

/-- Claim C10 (implicit frame effect): `calculateIndicators` returns a
sequence of the same length in which every bar keeps its `time`, `open`,
`high`, `low`, `close`, `volume` and `timestamp` — the pass only attaches
indicator fields and never alters or reorders the OHLCV data. -/
theorem calculateIndicators_preserves_ohlcv (sqrtFn : ℚ → ℚ) (candles : List Candle) :
    (calculateIndicators sqrtFn candles).length = candles.length ∧
    (∀ i : ℕ, i < candles.length →
      ((calculateIndicators sqrtFn candles).getD i emptyCandle).time =
          (candles.getD i emptyCandle).time ∧
      ((calculateIndicators sqrtFn candles).getD i emptyCandle).open_ =
          (candles.getD i emptyCandle).open_ ∧
      ((calculateIndicators sqrtFn candles).getD i emptyCandle).high =
          (candles.getD i emptyCandle).high ∧
      ((calculateIndicators sqrtFn candles).getD i emptyCandle).low =
          (candles.getD i emptyCandle).low ∧
      ((calculateIndicators sqrtFn candles).getD i emptyCandle).close =
          (candles.getD i emptyCandle).close ∧
      ((calculateIndicators sqrtFn candles).getD i emptyCandle).volume =
          (candles.getD i emptyCandle).volume ∧
      ((calculateIndicators sqrtFn candles).getD i emptyCandle).timestamp =
          (candles.getD i emptyCandle).timestamp) := by
  constructor
  · exact indicatorFold_length sqrtFn candles candles 0 {}
  · intro i h
    obtain ⟨st2, hst2⟩ := indicatorFold_getD sqrtFn candles candles 0 {} i h
    rw [Nat.zero_add] at hst2
    unfold calculateIndicators
    rw [hst2]
    exact ⟨rfl, rfl, rfl, rfl, rfl, rfl, rfl⟩

/-- Witness for C10: the frame property instantiated on a concrete
one-candle list with the zero square-root function. -/
theorem calculateIndicators_preserves_ohlcv_witness :
    (calculateIndicators (fun _ => 0) [offsetBar]).length = [offsetBar].length ∧
    ((calculateIndicators (fun _ => 0) [offsetBar]).getD 0 emptyCandle).close =
      ([offsetBar].getD 0 emptyCandle).close :=
  ⟨(calculateIndicators_preserves_ohlcv (fun _ => 0) [offsetBar]).1,
   ((calculateIndicators_preserves_ohlcv (fun _ => 0) [offsetBar]).2 0 (by decide)).2.2.2.2.1⟩

/-- The trailing 20-close window ending at index `i` (the closes of
`array.slice(i - 19, i + 1)`). -/
def bbWindowCloses (candles : List Candle) (i : ℕ) : List ℚ :=
  ((candles.drop (i - 19)).take 20).map (fun c => c.close)

/-- Simple moving average of the trailing 20-close window. -/
def bbMean (candles : List Candle) (i : ℕ) : ℚ :=
  (bbWindowCloses candles i).sum / 20

/-- Population variance of the trailing 20-close window. -/
def bbVariance (candles : List Candle) (i : ℕ) : ℚ :=
  ((bbWindowCloses candles i).map (fun c => (c - bbMean candles i) ^ 2)).sum / 20

/-- Claim C6 (amended: the gate is `index >= 20`, i.e. at least 21 bars up
to and including the bar, not `index >= 19`): the Bollinger field of the
`i`-th output bar of `calculateIndicators` is populated exactly when
`20 ≤ i`, in which case it is the simple moving average and population
standard deviation of the trailing 20-close window with
`upper/lower = mean ± 2 * stdDev`; on every earlier bar it is absent. -/
theorem bollinger_population (sqrtFn : ℚ → ℚ) (candles : List Candle) (i : ℕ)
    (h : i < candles.length) :
    ((calculateIndicators sqrtFn candles).getD i emptyCandle).bollinger =
      (if 20 ≤ i then
        some { upper := bbMean candles i + sqrtFn (bbVariance candles i) * 2,
               middle := bbMean candles i,
               lower := bbMean candles i - sqrtFn (bbVariance candles i) * 2 }
      else none) := by
  obtain ⟨st2, hst2⟩ := indicatorFold_getD sqrtFn candles candles 0 {} i h
  rw [Nat.zero_add] at hst2
  unfold calculateIndicators
  rw [hst2]
  show bollingerAt sqrtFn candles i = _
  unfold bollingerAt bbVariance bbMean bbWindowCloses
  rfl

/-- Twenty identical bars (closes all 1). -/
def twentyBars : List Candle :=
  List.replicate 20 { open_ := 1, high := 1, low := 1, close := 1, volume := 0, timestamp := 0 }

/-- Counterexample to claim C6 as stated: at bar index 19 twenty bars
exist up to and including the bar, yet the code's `index >= bbPeriod`
gate (with `bbPeriod = 20`) leaves the Bollinger field absent. -/
theorem bollinger_index19_counterexample :
    ((calculateIndicators (fun _ => 0) twentyBars).getD 19 emptyCandle).bollinger = none := by
  decide

/-- Twenty-one identical bars (closes all 1). -/
def twentyOneBars : List Candle :=
  List.replicate 21 { open_ := 1, high := 1, low := 1, close := 1, volume := 0, timestamp := 0 }

/-- Witness for the amended C6: at index 20 of a 21-bar constant-close
sequence the Bollinger field is populated, and with zero variance (and a
square root that maps it to 0) upper, middle and lower all equal the
mean 1. -/
theorem bollinger_population_witness :
    (((calculateIndicators (fun _ => 0) twentyOneBars).getD 20 emptyCandle).bollinger =
      (if 20 ≤ 20 then
        some { upper := bbMean twentyOneBars 20 + (fun (_ : ℚ) => (0:ℚ)) (bbVariance twentyOneBars 20) * 2,
               middle := bbMean twentyOneBars 20,
               lower := bbMean twentyOneBars 20 - (fun (_ : ℚ) => (0:ℚ)) (bbVariance twentyOneBars 20) * 2 }
      else none)) ∧
    ((calculateIndicators (fun _ => 0) twentyOneBars).getD 20 emptyCandle).bollinger =
      some { upper := 1, middle := 1, lower := 1 } :=
  ⟨bollinger_population (fun _ => 0) twentyOneBars 20 (by decide), by decide⟩

/-- The last candle of a list (`candles[candles.length - 1]`), with a
default for total access. -/
def lastCandle (candles : List Candle) : Candle :=
  candles.getLastD emptyCandle

/-- The second-to-last candle of a list (`candles[candles.length - 2]`). -/
def prevCandle (candles : List Candle) : Candle :=
  candles.getD (candles.length - 2) emptyCandle

/-- The indicator-readiness guard of `analyzeMarket`:
`!(!last.macd || !prev.macd || !last.bollinger || !last.adx || !last.rsi
|| !prev.rsi)`.  MACD and Bollinger are objects (truthy when present);
ADX and RSI are numbers, so a present-but-zero value also fails the
guard. -/
def indicatorsReady (candles : List Candle) : Bool :=
  (lastCandle candles).macd.isSome && (prevCandle candles).macd.isSome &&
  (lastCandle candles).bollinger.isSome && numTruthy (lastCandle candles).adx &&
  numTruthy (lastCandle candles).rsi && numTruthy (prevCandle candles).rsi

/-- Regime classification of `analyzeMarket` including the news override:
`ADX>25` splits on `close>EMA200`, `ADX<20` is choppy, otherwise ranging;
a sentiment magnitude above 5 overrides to a news regime. -/
def regimeOf (candles : List Candle) (sentimentScore : ℚ) : String :=
  if 5 < sentimentScore then "NEWS_BULLISH"
  else if sentimentScore < -5 then "NEWS_BEARISH"
  else if 25 < (lastCandle candles).adx.getD 0 then
    (if (lastCandle candles).ema200.getD 0 < (lastCandle candles).close then
      "STRONG_BULL_TREND"
    else "STRONG_BEAR_TREND")
  else if (lastCandle candles).adx.getD 0 < 20 then "CHOPPY/SIDEWAYS"
  else "RANGING"

/-- The sentiment context string of `analyzeMarket`, present exactly when
the sentiment magnitude exceeds 5. -/
def sentimentContextOf (sentimentScore : ℚ) : Option String :=
  if 5 < sentimentScore then
    some ("Bullish Sentiment (+" ++ toString (Rat.floor (min sentimentScore 30)) ++ ")")
  else if sentimentScore < -5 then
    some ("Bearish Sentiment (+" ++ toString (Rat.floor (min |sentimentScore| 30)) ++ ")")
  else none

/-- The signal-emission threshold of `analyzeMarket`. -/
def THRESHOLD : ℚ := 70

/-- The strength-tier function `getStrength` of `analyzeMarket`. -/
def getStrength (score : ℚ) : Strength :=
  if 100 < score then Strength.MAX
  else if 85 < score then Strength.STRONG
  else if 70 < score then Strength.MODERATE
  else Strength.WEAK

/-- Everything the scoring section of `analyzeMarket` accumulates before
the emission gate. -/
structure ScoreData where
  callScore : ℚ
  putScore : ℚ
  strategyName : String
  regime : String
  aiConfidence : ℚ
  aiPrediction : Option ℚ
  sentimentContext : Option String
deriving DecidableEq

/-- The scoring section of `analyzeMarket`, in source order: sentiment
contribution (capped at 30), trend-following strategy (active when
`ADX > 25`; 25/20/10/5 points), mean-reversion strategy (active when
`ADX <= 30`; 30/20/10 points), then the prediction-model fusion (up to
100 points scaled by divergence against a 0.05% threshold, capped at
2x).  `aiModel` abstracts the LSTM oracle `predictLSTM` as a function
from the candle history to an optional predicted price; `sentimentScore`
is the value returned by the `MarketSentiment.getScore()` read. -/
def computeScores (candles : List Candle) (aiModel : Option (List Candle → Option ℚ))
    (sentimentScore : ℚ) : ScoreData :=
  let last := lastCandle candles
  let prev := prevCandle candles
  let aiPricePrediction : Option ℚ :=
    match aiModel with
    | none => none
    | some f => f candles
  let pred := aiPricePrediction.getD 0
  let predTruthy := numTruthy aiPricePrediction
  let aiBullish : Bool := predTruthy && decide (last.close < pred)
  let aiBearish : Bool := predTruthy && !(decide (last.close < pred))
  let rsi := last.rsi.getD 0
  let ema200v := last.ema200.getD 0
  let adxv := last.adx.getD 0
  let macdLast := last.macd.getD { line := 0, signal := 0, hist := 0 }
  let macdPrev := prev.macd.getD { line := 0, signal := 0, hist := 0 }
  let boll := last.bollinger.getD { upper := 0, middle := 0, lower := 0 }
  let isOverbought : Bool := decide (70 < rsi)
  let isOversold : Bool := decide (rsi < 30)
  let isAboveEma : Bool := decide (ema200v < last.close)
  let bullCross : Bool := decide (macdPrev.line < macdPrev.signal) &&
    decide (macdLast.signal < macdLast.line)
  let bearCross : Bool := decide (macdPrev.signal < macdPrev.line) &&
    decide (macdLast.line < macdLast.signal)
  let histImproving : Bool := decide (macdPrev.hist < macdLast.hist)
  let histDeclining : Bool := decide (macdLast.hist < macdPrev.hist)
  let bbLowerBreak : Bool := decide (last.close < boll.lower)
  let bbUpperBreak : Bool := decide (boll.upper < last.close)
  let bbMidCrossUp : Bool := decide (prev.close < boll.middle) &&
    decide (boll.middle < last.close)
  let bbMidCrossDown : Bool := decide (boll.middle < prev.close) &&
    decide (last.close < boll.middle)
  let callScore0 : ℚ := if 5 < sentimentScore then min sentimentScore 30 else 0
  let putScore0 : ℚ := if sentimentScore < -5 then min |sentimentScore| 30 else 0
  let callScore1 : ℚ :=
    if decide (25 < adxv) && isAboveEma then
      callScore0 + (if bullCross then 25 else 0) + (if bbMidCrossUp then 20 else 0)
        + (if decide (50 < rsi) && decide (rsi < 70) then 10 else 0)
        + (if histImproving && decide (0 < macdLast.hist) then 5 else 0)
    else callScore0
  let strategyName1 : String :=
    if decide (25 < adxv) && isAboveEma && decide (20 < callScore1) then "Trend Alpha" else ""
  let putScore1 : ℚ :=
    if decide (25 < adxv) && !isAboveEma then
      putScore0 + (if bearCross then 25 else 0) + (if bbMidCrossDown then 20 else 0)
        + (if decide (rsi < 50) && decide (30 < rsi) then 10 else 0)
        + (if histDeclining && decide (macdLast.hist < 0) then 5 else 0)
    else putScore0
  let strategyName2 : String :=
    if decide (25 < adxv) && !isAboveEma && decide (20 < putScore1) then "Trend Alpha"
    else strategyName1
  let callScore2 : ℚ :=
    if decide (adxv ≤ 30) then
      callScore1 + (if bbLowerBreak then 30 else 0) + (if isOversold then 20 else 0)
        + (if bullCross then 10 else 0)
    else callScore1
  let strategyName3 : String :=
    if decide (adxv ≤ 30) && decide (20 < callScore2) && decide (strategyName2 = "") then
      "BB Reversion"
    else strategyName2
  let putScore2 : ℚ :=
    if decide (adxv ≤ 30) then
      putScore1 + (if bbUpperBreak then 30 else 0) + (if isOverbought then 20 else 0)
        + (if bearCross then 10 else 0)
    else putScore1
  let strategyName4 : String :=
    if decide (adxv ≤ 30) && decide (20 < putScore2) && decide (strategyName3 = "") then
      "BB Reversion"
    else strategyName3
  let aiConfidence : ℚ :=
    if predTruthy then
      (let diff := |pred - last.close|
       let threshold := last.close * (5 / 10000)
       let ratioVal := if threshold = 0 then 2 else min (diff / threshold) 2
       ratioVal * 50)
    else 0
  let callScore3 : ℚ := if aiBullish then callScore2 + aiConfidence else callScore2
  let putScore3 : ℚ := if aiBearish then putScore2 + aiConfidence else putScore2
  let strategyName5 : String :=
    if aiBullish || aiBearish then
      (if strategyName4 = "" then "LSTM Pure" else strategyName4 ++ " + LSTM")
    else strategyName4
  let sentCtx := sentimentContextOf sentimentScore
  let strategyName6 : String :=
    if sentCtx.isSome then
      (if strategyName5 = "" then "News Event" else strategyName5 ++ " & News")
    else strategyName5
  { callScore := callScore3, putScore := putScore3, strategyName := strategyName6,
    regime := regimeOf candles sentimentScore, aiConfidence := aiConfidence,
    aiPrediction := aiPricePrediction, sentimentContext := sentCtx }

/-- The signal record built at emission time inside `analyzeMarket` (the
random id and the locale time string are abstracted to `""`; `now` is the
`Date.now()` instant). -/
def mkSignal (d : ScoreData) (ty : SignalType) (score : ℚ) (last : Candle)
    (tf : String) (now : ℤ) : Signal :=
  { id := "",
    timestamp := now,
    timestampStr := "",
    type := ty,
    price := last.close,
    confidence := min (score / 150) (99 / 100),
    timeframe := tf,
    regime := d.regime,
    status := SignalStatus.PENDING,
    strategy := some (if d.strategyName = "" then "Hybrid" else d.strategyName),
    aiPrediction := some (d.aiPrediction.getD 0),
    signalStrength := some (getStrength score),
    aiConfidenceScore := some d.aiConfidence,
    newsContext := d.sentimentContext }

/-- Result of `analyzeMarket` (the display-only `debug` string is
abstracted to `none`). -/
structure AnalyzeResult where
  signal : Option Signal
  regime : String
  debug : Option String := none
deriving DecidableEq

/-- The signal scorer `analyzeMarket`: requires at least 30 candles
(else `GATHERING_DATA`), requires the indicator guard (else
`CALCULATING`), accumulates `computeScores`, and emits a CALL (resp.
PUT) signal exactly when that side's score reaches the threshold 70 and
strictly exceeds the other side's. -/
def analyzeMarket (candles : List Candle) (timeframeStr : String)
    (aiModel : Option (List Candle → Option ℚ)) (sentimentScore : ℚ) (now : ℤ) :
    AnalyzeResult :=
  if candles.length < 30 then { signal := none, regime := "GATHERING_DATA" }
  else if indicatorsReady candles then
    (let d := computeScores candles aiModel sentimentScore
     if THRESHOLD ≤ d.callScore ∧ d.putScore < d.callScore then
       { signal := some (mkSignal d SignalType.CALL d.callScore (lastCandle candles)
           timeframeStr now),
         regime := d.regime }
     else if THRESHOLD ≤ d.putScore ∧ d.callScore < d.putScore then
       { signal := some (mkSignal d SignalType.PUT d.putScore (lastCandle candles)
           timeframeStr now),
         regime := d.regime }
     else { signal := none, regime := d.regime })
  else { signal := none, regime := "CALCULATING" }

/-- Plain filler bar used to pad concrete scoring inputs to 30 candles. -/
def fillerCandle : Candle :=
  { open_ := 1, high := 1, low := 1, close := 1, volume := 0, timestamp := 0 }

/-- Second-to-last bar of the near-miss input: MACD below its signal line
(crossover setup), RSI populated, close below the band middle. -/
def nmPrev : Candle :=
  { fillerCandle with
      close := 1 / 2,
      macd := some { line := -1, signal := 0, hist := 0 },
      rsi := some 55 }

/-- Last bar of the near-miss input: fresh MACD bullish crossover, close
above the band middle, RSI 60, ADX 31 (trend strategy only), flat MACD
histogram (no 5-point bonus). -/
def nmLast : Candle :=
  { fillerCandle with
      close := 2,
      macd := some { line := 1, signal := 0, hist := 0 },
      bollinger := some { upper := 10, middle := 1, lower := 0 },
      adx := some 31,
      rsi := some 60 }

/-- Thirty-bar input realizing the trend-strategy near miss: bullish
crossover (25) + mid-band cross up (20) + RSI in the moderate band (10)
and nothing else, totalling 55. -/
def nearMissCandles : List Candle :=
  List.replicate 28 fillerCandle ++ [nmPrev, nmLast]

/-- Claim C3: once the readiness guards pass, `analyzeMarket` returns a
signal if and only if one side's accumulated score reaches the fixed
threshold 70 and strictly exceeds the opposite side's score; when neither
side satisfies both conditions the signal is `none`. -/
theorem analyzeMarket_threshold_gate (candles : List Candle) (tf : String)
    (model : Option (List Candle → Option ℚ)) (sent : ℚ) (now : ℤ)
    (h30 : 30 ≤ candles.length) (hready : indicatorsReady candles = true) :
    ((analyzeMarket candles tf model sent now).signal.isSome = true ↔
      (THRESHOLD ≤ (computeScores candles model sent).callScore ∧
        (computeScores candles model sent).putScore <
          (computeScores candles model sent).callScore) ∨
      (THRESHOLD ≤ (computeScores candles model sent).putScore ∧
        (computeScores candles model sent).callScore <
          (computeScores candles model sent).putScore)) := by
  unfold analyzeMarket
  rw [if_neg (by omega), if_pos hready]
  dsimp only
  by_cases h1 : THRESHOLD ≤ (computeScores candles model sent).callScore ∧
      (computeScores candles model sent).putScore <
        (computeScores candles model sent).callScore
  · rw [if_pos h1]
    simp [h1]
  · rw [if_neg h1]
    by_cases h2 : THRESHOLD ≤ (computeScores candles model sent).putScore ∧
        (computeScores candles model sent).callScore <
          (computeScores candles model sent).putScore
    · rw [if_pos h2]
      simp [h2]
    · rw [if_neg h2]
      constructor
      · intro hcontra
        simp at hcontra
      · rintro (h | h)
        · exact absurd h h1
        · exact absurd h h2

/-- Witness for C3: the gate instantiated on the near-miss input, whose
trend strategy accumulates exactly 55 points (25+20+10) — below the
threshold — so no signal is produced. -/
theorem analyzeMarket_threshold_gate_witness :
    ((analyzeMarket nearMissCandles "5m" none 0 0).signal.isSome = true ↔
      (THRESHOLD ≤ (computeScores nearMissCandles none 0).callScore ∧
        (computeScores nearMissCandles none 0).putScore <
          (computeScores nearMissCandles none 0).callScore) ∨
      (THRESHOLD ≤ (computeScores nearMissCandles none 0).putScore ∧
        (computeScores nearMissCandles none 0).callScore <
          (computeScores nearMissCandles none 0).putScore)) ∧
    (computeScores nearMissCandles none 0).callScore = 55 ∧
    (analyzeMarket nearMissCandles "5m" none 0 0).signal = none :=
  ⟨analyzeMarket_threshold_gate nearMissCandles "5m" none 0 0 (by decide) (by decide),
   by decide, by decide⟩

/-- Helper: the regime produced by the scoring section is never one of
the two not-ready labels. -/
theorem regimeOf_ne_notReady (candles : List Candle) (sent : ℚ) :
    regimeOf candles sent ≠ "GATHERING_DATA" ∧ regimeOf candles sent ≠ "CALCULATING" := by
  unfold regimeOf
  split_ifs <;> exact ⟨by decide, by decide⟩

/-- Helper: the regime field of the accumulated scores is the regime
classification. -/
theorem computeScores_regime (candles : List Candle)
    (model : Option (List Candle → Option ℚ)) (sent : ℚ) :
    (computeScores candles model sent).regime = regimeOf candles sent := rfl

/-- Claim C4 (amended: the source checks MACD on the last two bars, RSI
on the last two bars, but Bollinger and ADX only on the last bar — and
the numeric ADX/RSI checks also fail on a present-but-zero value):
`analyzeMarket` returns the not-ready result (signal `none` with a
`GATHERING_DATA` or `CALCULATING` regime) exactly when the input has
fewer than 30 bars or that readiness guard fails. -/
theorem analyzeMarket_notReady_iff (candles : List Candle) (tf : String)
    (model : Option (List Candle → Option ℚ)) (sent : ℚ) (now : ℤ) :
    ((analyzeMarket candles tf model sent now).signal = none ∧
      ((analyzeMarket candles tf model sent now).regime = "GATHERING_DATA" ∨
        (analyzeMarket candles tf model sent now).regime = "CALCULATING")) ↔
      (candles.length < 30 ∨ indicatorsReady candles = false) := by
  unfold analyzeMarket
  by_cases h30 : candles.length < 30
  · rw [if_pos h30]
    simp [h30]
  · rw [if_neg h30]
    by_cases hr : indicatorsReady candles = true
    · rw [if_pos hr]
      dsimp only
      have hregime := regimeOf_ne_notReady candles sent
      have hcr := computeScores_regime candles model sent
      have hback : ¬(candles.length < 30 ∨ indicatorsReady candles = false) := by
        rintro (h | h)
        · exact h30 h
        · rw [hr] at h
          exact absurd h (by simp)
      by_cases h1 : THRESHOLD ≤ (computeScores candles model sent).callScore ∧
          (computeScores candles model sent).putScore <
            (computeScores candles model sent).callScore
      · rw [if_pos h1]
        constructor
        · intro hcontra
          simp at hcontra
        · intro hcontra
          exact absurd hcontra hback
      · rw [if_neg h1]
        by_cases h2 : THRESHOLD ≤ (computeScores candles model sent).putScore ∧
            (computeScores candles model sent).callScore <
              (computeScores candles model sent).putScore
        · rw [if_pos h2]
          constructor
          · intro hcontra
            simp at hcontra
          · intro hcontra
            exact absurd hcontra hback
        · rw [if_neg h2]
          constructor
          · intro hcontra
            rcases hcontra with ⟨_, hreg⟩
            simp only [hcr] at hreg
            rcases hreg with h | h
            · exact absurd h hregime.1
            · exact absurd h hregime.2
          · intro hcontra
            exact absurd hcontra hback
    · rw [if_neg hr]
      have hf : indicatorsReady candles = false := by simpa using hr
      simp [hf]

/-- Second-to-last bar of the C4 counterexample input: MACD and RSI
populated (as the guard requires) but ADX and Bollinger absent. -/
def c4Prev : Candle :=
  { fillerCandle with
      close := 1 / 2,
      macd := some { line := -1, signal := 0, hist := 0 },
      rsi := some 55 }

/-- Last bar of the C4 counterexample input: all guarded indicators
present, positioned to score 100 call points (trend 25+20+10+5 plus
reversion 30+10 in the overlapping ADX band). -/
def c4Last : Candle :=
  { fillerCandle with
      close := 2,
      macd := some { line := 1, signal := 0, hist := 1 },
      bollinger := some { upper := 10, middle := 1, lower := 5 },
      adx := some 26,
      rsi := some 60 }

/-- Thirty-bar input on which `analyzeMarket` emits a CALL signal even
though ADX and Bollinger are absent on the second-to-last bar. -/
def c4Candles : List Candle :=
  List.replicate 28 fillerCandle ++ [c4Prev, c4Last]

/-- Counterexample to claim C4 as stated: the readiness guard does not
check ADX or Bollinger on the second-to-last bar, so this 30-bar input
with both absent there still scores and emits a signal instead of
returning a not-ready result. -/
theorem analyzeMarket_readiness_counterexample :
    (analyzeMarket c4Candles "5m" none 0 0).signal.isSome = true ∧
    (c4Candles.getD 28 emptyCandle).adx = none ∧
    (c4Candles.getD 28 emptyCandle).bollinger = none ∧
    c4Candles.length = 30 := by
  refine ⟨by decide, by decide, by decide, by decide⟩

/-- Helper: characterization of the strength tiers for any score that
passed the emission threshold. -/
theorem getStrength_spec (S : ℚ) (h70 : 70 ≤ S) :
    (getStrength S = Strength.MAX ↔ 100 < S) ∧
    (getStrength S = Strength.STRONG ↔ (85 < S ∧ S ≤ 100)) ∧
    (getStrength S = Strength.MODERATE ↔ (70 < S ∧ S ≤ 85)) ∧
    (getStrength S = Strength.WEAK ↔ S = 70) := by
  unfold getStrength
  split_ifs with hA hB hC
  · exact ⟨⟨fun _ => hA, fun _ => rfl⟩,
      ⟨fun h => absurd h (by decide), fun h => absurd hA (not_lt.mpr h.2)⟩,
      ⟨fun h => absurd h (by decide),
        fun h => absurd hA (not_lt.mpr (le_trans h.2 (by norm_num)))⟩,
      ⟨fun h => absurd h (by decide), fun h => absurd hA (by rw [h]; norm_num)⟩⟩
  · exact ⟨⟨fun h => absurd h (by decide), fun h => absurd h hA⟩,
      ⟨fun _ => ⟨hB, not_lt.mp hA⟩, fun _ => rfl⟩,
      ⟨fun h => absurd h (by decide), fun h => absurd hB (not_lt.mpr h.2)⟩,
      ⟨fun h => absurd h (by decide), fun h => absurd hB (by rw [h]; norm_num)⟩⟩
  · exact ⟨⟨fun h => absurd h (by decide), fun h => absurd h hA⟩,
      ⟨fun h => absurd h (by decide), fun h => absurd h.1 hB⟩,
      ⟨fun _ => ⟨hC, not_lt.mp hB⟩, fun _ => rfl⟩,
      ⟨fun h => absurd h (by decide), fun h => absurd hC (by rw [h]; norm_num)⟩⟩
  · exact ⟨⟨fun h => absurd h (by decide), fun h => absurd h hA⟩,
      ⟨fun h => absurd h (by decide), fun h => absurd h.1 hB⟩,
      ⟨fun h => absurd h (by decide), fun h => absurd h.1 hC⟩,
      ⟨fun _ => le_antisymm (not_lt.mp hC) h70, fun _ => rfl⟩⟩

/-- Claim C7 (amended: a winning score of exactly 70 passes the `>= 70`
emission gate but fails every strict `>` tier test, so it is emitted with
the WEAK tier): every emitted signal carries the tier of its winning
score — MAX above 100, STRONG in (85, 100], MODERATE in (70, 85], and
WEAK exactly when the winning score equals 70. -/
theorem signalStrength_tiers (candles : List Candle) (tf : String)
    (model : Option (List Candle → Option ℚ)) (sent : ℚ) (now : ℤ) (sig : Signal)
    (h : (analyzeMarket candles tf model sent now).signal = some sig) :
    sig.signalStrength = some (getStrength
      (max (computeScores candles model sent).callScore
        (computeScores candles model sent).putScore)) ∧
    (sig.signalStrength = some Strength.MAX ↔
      100 < max (computeScores candles model sent).callScore
        (computeScores candles model sent).putScore) ∧
    (sig.signalStrength = some Strength.STRONG ↔
      (85 < max (computeScores candles model sent).callScore
        (computeScores candles model sent).putScore ∧
       max (computeScores candles model sent).callScore
        (computeScores candles model sent).putScore ≤ 100)) ∧
    (sig.signalStrength = some Strength.MODERATE ↔
      (70 < max (computeScores candles model sent).callScore
        (computeScores candles model sent).putScore ∧
       max (computeScores candles model sent).callScore
        (computeScores candles model sent).putScore ≤ 85)) ∧
    (sig.signalStrength = some Strength.WEAK ↔
      max (computeScores candles model sent).callScore
        (computeScores candles model sent).putScore = 70) := by
  unfold analyzeMarket at h
  by_cases h30 : candles.length < 30
  · rw [if_pos h30] at h
    exact absurd h (by simp)
  · rw [if_neg h30] at h
    by_cases hr : indicatorsReady candles = true
    · rw [if_pos hr] at h
      dsimp only at h
      by_cases h1 : THRESHOLD ≤ (computeScores candles model sent).callScore ∧
          (computeScores candles model sent).putScore <
            (computeScores candles model sent).callScore
      · rw [if_pos h1] at h
        have hsig : sig = mkSignal (computeScores candles model sent) SignalType.CALL
            ((computeScores candles model sent).callScore) (lastCandle candles) tf now :=
          (Option.some.inj h).symm
        have hmax : max (computeScores candles model sent).callScore
            (computeScores candles model sent).putScore =
            (computeScores candles model sent).callScore := max_eq_left (le_of_lt h1.2)
        have hspec := getStrength_spec ((computeScores candles model sent).callScore) h1.1
        rw [hsig, hmax]
        exact ⟨rfl, by simp [mkSignal, hspec.1], by simp [mkSignal, hspec.2.1],
          by simp [mkSignal, hspec.2.2.1], by simp [mkSignal, hspec.2.2.2]⟩
      · rw [if_neg h1] at h
        by_cases h2 : THRESHOLD ≤ (computeScores candles model sent).putScore ∧
            (computeScores candles model sent).callScore <
              (computeScores candles model sent).putScore
        · rw [if_pos h2] at h
          have hsig : sig = mkSignal (computeScores candles model sent) SignalType.PUT
              ((computeScores candles model sent).putScore) (lastCandle candles) tf now :=
            (Option.some.inj h).symm
          have hmax : max (computeScores candles model sent).callScore
              (computeScores candles model sent).putScore =
              (computeScores candles model sent).putScore := max_eq_right (le_of_lt h2.2)
          have hspec := getStrength_spec ((computeScores candles model sent).putScore) h2.1
          rw [hsig, hmax]
          exact ⟨rfl, by simp [mkSignal, hspec.1], by simp [mkSignal, hspec.2.1],
            by simp [mkSignal, hspec.2.2.1], by simp [mkSignal, hspec.2.2.2]⟩
        · rw [if_neg h2] at h
          exact absurd h (by simp)
    · rw [if_neg hr] at h
      exact absurd h (by simp)

/-- Second-to-last bar of the exact-70 input: MACD crossover setup with a
flat histogram. -/
def c7Prev : Candle :=
  { fillerCandle with
      close := 1,
      macd := some { line := -1, signal := 0, hist := 0 },
      rsi := some 50 }

/-- Last bar of the exact-70 input: weak trend (ADX 10), band breach
below the lower band, oversold RSI and a bullish crossover, so the
mean-reversion strategy scores 30+20+10 points. -/
def c7Last : Candle :=
  { fillerCandle with
      close := 2,
      macd := some { line := 1, signal := 0, hist := 0 },
      bollinger := some { upper := 10, middle := 5, lower := 3 },
      adx := some 10,
      rsi := some 20 }

/-- Thirty-bar input on which, with sentiment score 10 (contributing 10
points), the call score is exactly 70. -/
def c7Candles : List Candle :=
  List.replicate 28 fillerCandle ++ [c7Prev, c7Last]

/-- Counterexample to claim C7 as stated: a winning score of exactly 70
passes the emission gate yet maps to the WEAK tier, so the scorer does
return a signal whose `signalStrength` is WEAK. -/
theorem signalStrength_weak_counterexample :
    ((analyzeMarket c7Candles "5m" none 10 0).signal.map (fun s => s.signalStrength)) =
      some (some Strength.WEAK) := by decide

/-- The signal emitted on the exact-70 input. -/
def c7SigW : Signal :=
  ((analyzeMarket c7Candles "5m" none 10 0).signal).getD dummySignal

/-- Witness for the amended C7: the tier characterization instantiated on
the exact-70 emission. -/
theorem signalStrength_tiers_witness :
    c7SigW.signalStrength = some (getStrength
      (max (computeScores c7Candles none 10).callScore
        (computeScores c7Candles none 10).putScore)) ∧
    (c7SigW.signalStrength = some Strength.MAX ↔
      100 < max (computeScores c7Candles none 10).callScore
        (computeScores c7Candles none 10).putScore) ∧
    (c7SigW.signalStrength = some Strength.STRONG ↔
      (85 < max (computeScores c7Candles none 10).callScore
        (computeScores c7Candles none 10).putScore ∧
       max (computeScores c7Candles none 10).callScore
        (computeScores c7Candles none 10).putScore ≤ 100)) ∧
    (c7SigW.signalStrength = some Strength.MODERATE ↔
      (70 < max (computeScores c7Candles none 10).callScore
        (computeScores c7Candles none 10).putScore ∧
       max (computeScores c7Candles none 10).callScore
        (computeScores c7Candles none 10).putScore ≤ 85)) ∧
    (c7SigW.signalStrength = some Strength.WEAK ↔
      max (computeScores c7Candles none 10).callScore
        (computeScores c7Candles none 10).putScore = 70) :=
  signalStrength_tiers c7Candles "5m" none 10 0 c7SigW (by decide)
